import Mathlib

/-!
Verification of the file-serving core of `src/main.py` (a FastAPI app that
lists a directory tree and streams single files).

The POSIX filesystem is shallowly embedded as a finite association list from
absolute paths (lists of name segments below "/") to nodes (regular file with
content bytes and timestamps, directory, or symbolic link with an absolute
target).  `pathlib.Path.resolve(strict=False)` is embedded as a fuelled
left-to-right walk that follows symbolic links at every component and applies
`..` physically; the fuel models the kernel's ELOOP bound (a loop raises
`OSError`, which the handler's `except` turns into HTTP 500).

Conventions and simplifications, noted where they matter:
* timestamps are carried as raw naturals; `datetime.fromtimestamp(..).isoformat()`
  formatting is injective plumbing and is not modelled;
* the `str(parent).replace('\\', '/')` in `list_files` is a no-op on POSIX
  segment names (which contain no backslash) and is omitted;
* `mimetypes.guess_type` is an external stdlib lookup table; it is embedded
  as a representative extension table with the same unrecognized-extension
  fallback behaviour (`None`);
* symbolic-link targets are stored as absolute paths;
* `Path.rglob('*')` does not follow directory symlinks (CPython < 3.13), so
  the walk enumerates exactly the stored (physical) paths below the root.
-/

namespace FileServer

/-- Decidable equality for `Except` results, used to evaluate the model on
concrete inputs. -/
instance {ε α : Type} [DecidableEq ε] [DecidableEq α] : DecidableEq (Except ε α)
  | .ok a, .ok b =>
    if h : a = b then .isTrue (by rw [h]) else .isFalse (by simp [h])
  | .ok _, .error _ => .isFalse (by simp)
  | .error _, .ok _ => .isFalse (by simp)
  | .error e, .error f =>
    if h : e = f then .isTrue (by rw [h]) else .isFalse (by simp [h])

/-- An absolute filesystem path: the list of name segments below "/". -/
abbrev FsPath := List String

/-- A filesystem node: regular file (content bytes, st_ctime, st_mtime),
directory, or symbolic link with an absolute target path. -/
inductive Node where
  | file (content : List Nat) (ctime mtime : Nat)
  | dir
  | symlink (target : FsPath)
deriving Repr, DecidableEq

/-- A filesystem snapshot: a finite association list from absolute paths to
nodes, standing for the real directory tree the process serves. -/
abbrev FS := List (FsPath × Node)

/-- Path lookup in the filesystem (first matching entry). -/
def fsLookup : FS → FsPath → Option Node
  | [], _ => none
  | (q, n) :: rest, p => if p = q then some n else fsLookup rest p

/-- The symbolic-link target stored at `p`, if `p` is a symlink. -/
def symAt (fs : FS) (p : FsPath) : Option FsPath :=
  match fsLookup fs p with
  | some (.symlink t) => some t
  | _ => none

/-- String rendering of an absolute path, as `str(PosixPath(...))` renders it:
"/" followed by the segments joined with "/". -/
def pathStr (p : FsPath) : String :=
  p.foldl (fun a c => a ++ "/" ++ c) ""

/-- Python's `str.startswith`: the candidate prefix's characters are an
initial segment of the string's characters. -/
def strStartsWith (s pre : String) : Bool :=
  pre.data.isPrefixOf s.data

/-- Split a character list at every occurrence of the separator, like
Python's `str.split(sep)` for a one-character separator. -/
def splitOnChar (sep : Char) : List Char → List (List Char)
  | [] => [[]]
  | c :: rest =>
    match splitOnChar sep rest with
    | [] => if c = sep then [[], []] else [[c]]
    | piece :: pieces => if c = sep then [] :: piece :: pieces else (c :: piece) :: pieces

/-- Splitting a string on a one-character separator. -/
def splitOnSep (sep : Char) (s : String) : List String :=
  (splitOnChar sep s.data).map String.mk

/-- Component parsing done by `pathlib.PurePosixPath`: split on "/", dropping
empty components and "." components (".." is kept for `resolve`). -/
def parseComponents (s : String) : List String :=
  (splitOnSep '/' s).filter (fun c => c != "" && c != ".")

/-- The `/` operator of `pathlib`: joining an absolute right operand discards
the left operand; otherwise the parsed components are appended. -/
def pyJoin (root : FsPath) (s : String) : FsPath :=
  if strStartsWith s "/" then parseComponents s else root ++ parseComponents s

/-- Core of `Path.resolve(strict=False)`: walk the components left to right
over the already-resolved accumulator; "." is dropped, ".." pops the (real)
parent, and a component landing on a symlink restarts resolution at the
link's absolute target.  Fuel bounds symlink chasing; running out models the
kernel's ELOOP error (`OSError` from `resolve`). -/
def resolveGo (fs : FS) : Nat → FsPath → List String → Option FsPath
  | 0, _, _ => none
  | _ + 1, acc, [] => some acc
  | fuel + 1, acc, c :: rest =>
    if c = "." then resolveGo fs fuel acc rest
    else if c = ".." then resolveGo fs fuel acc.dropLast rest
    else
      match symAt fs (acc ++ [c]) with
      | none => resolveGo fs fuel (acc ++ [c]) rest
      | some t =>
        match resolveGo fs fuel [] t with
        | none => none
        | some acc2 => resolveGo fs fuel acc2 rest

/-- Fuel budget that is always sufficient for symlink-free resolution and
bounds symlink chasing like the kernel's ELOOP limit does. -/
def symTotal (fs : FS) : Nat :=
  fs.foldl (fun a e => a + match e.2 with | .symlink t => t.length + 2 | _ => 0) 0

/-- `Path.resolve(strict=False)` on an absolute path: `none` models the
`OSError` raised on a symlink loop. -/
def resolveFull (fs : FS) (p : FsPath) : Option FsPath :=
  resolveGo fs (p.length + 40 * (symTotal fs + 1) + 1) [] p

/-- `os.stat` through symlinks: resolve the path, then read a regular file's
content and timestamps; `none` when the resolved path is absent or not a
regular file. -/
def statFile (fs : FS) (p : FsPath) : Option (List Nat × Nat × Nat) :=
  match resolveFull fs p with
  | some q =>
    match fsLookup fs q with
    | some (.file c ct mt) => some (c, ct, mt)
    | _ => none
  | none => none

/-- `Path.is_file()`: stat through symlinks and test for a regular file. -/
def is_file (fs : FS) (p : FsPath) : Bool :=
  (statFile fs p).isSome

/-- The final path segment, `Path.name` (empty for the filesystem root). -/
def lastSeg (p : FsPath) : String :=
  p.getLastD ""

/-- Representative extension table of Python's `mimetypes` module. -/
def mimeTypesMap : List (String × String) :=
  [("pdf", "application/pdf"), ("txt", "text/plain"), ("html", "text/html"),
   ("htm", "text/html"), ("json", "application/json"), ("png", "image/png"),
   ("jpg", "image/jpeg"), ("jpeg", "image/jpeg"), ("gif", "image/gif"),
   ("csv", "text/csv"), ("zip", "application/zip"), ("mp3", "audio/mpeg"),
   ("mp4", "video/mp4"), ("xml", "text/xml"), ("js", "text/javascript"),
   ("css", "text/css"), ("svg", "image/svg+xml"), ("doc", "application/msword")]

/-- ASCII lowercasing of a string, as `str.lower` acts on extension names. -/
def lowerAscii (s : String) : String :=
  String.mk (s.data.map Char.toLower)

/-- `mimetypes.guess_type` restricted to its type component: look up the
lowercased final extension; a name without a dot or with an unrecognized
extension yields `none`. -/
def guess_type (filename : String) : Option String :=
  match (splitOnSep '.' filename).reverse with
  | ext :: _ :: _ => List.lookup (lowerAscii ext) mimeTypesMap
  | _ => none

/-- One entry of the `files_info` list built by `list_files` in `main.py`
(`created_at`/`modified_at` carry the raw stat timestamps). -/
structure FileRecord where
  name : String
  type : String
  size_bytes : Nat
  created_at : Nat
  modified_at : Nat
  subdirectory : String
deriving Repr, DecidableEq

/-- The record `list_files` appends for the walked path `p` holding a file
with content `c` and timestamps `ct`, `mt`:  name, guessed MIME type with the
octet-stream fallback, size, timestamps, and the parent of the path relative
to the root joined with "/" (empty when the file sits directly in the root). -/
def mkRecord (root p : FsPath) (c : List Nat) (ct mt : Nat) : FileRecord :=
  { name := lastSeg p
    type := (guess_type (lastSeg p)).getD "application/octet-stream"
    size_bytes := c.length
    created_at := ct
    modified_at := mt
    subdirectory := String.intercalate "/" ((p.drop root.length).dropLast) }

/-- `target_directory.rglob('*')`: every stored path strictly below the root
(segment-wise; `rglob` does not follow directory symlinks, so only physical
paths appear), in storage order. -/
def rglobStar (fs : FS) (root : FsPath) : List FsPath :=
  (fs.map Prod.fst).filter (fun p => root.isPrefixOf p && p != root)

/-- Loop body of `list_files`: for each walked path that `is_file`, stat it
and append its record.  `vanish p` models the file at `p` disappearing in
the race window between the `is_file()` check and the `stat()` call, in
which case `stat` raises `FileNotFoundError` and the loop aborts. -/
def listLoop (fs : FS) (root : FsPath) (vanish : FsPath → Bool) :
    List FsPath → Except String (List FileRecord)
  | [] => .ok []
  | p :: rest =>
    if is_file fs p then
      if vanish p then .error "No such file or directory"
      else
        match statFile fs p with
        | some (c, ct, mt) => (listLoop fs root vanish rest).map (mkRecord root p c ct mt :: ·)
        | none => .error "No such file or directory"
    else listLoop fs root vanish rest

/-- `list_files` of `main.py` up to the HTTP layer: walk the root and build
the records.  CPython's `Path.rglob('*')` yields an empty iterator when the
root is missing or not a directory (its glob selectors bail out, and
directory errors during scanning are swallowed), so there is no root-level
error path; the only exceptions are raised by per-entry processing (the
`stat()` of a vanished file), and the surrounding `try` turns those into an
error result. -/
def list_files (fs : FS) (root : FsPath) (vanish : FsPath → Bool) :
    Except String (List FileRecord) :=
  listLoop fs root vanish (rglobStar fs root)

/-- HTTP result of the list endpoint. -/
inductive ListResult where
  | ok (files : List FileRecord)
  | err (status : Nat) (detail : String)
deriving Repr, DecidableEq

/-- The `GET /files` handler: 200 with the records, or the `except` branch
raising `HTTPException(500, str(e))`. -/
def list_files_endpoint (fs : FS) (root : FsPath) (vanish : FsPath → Bool) : ListResult :=
  match list_files fs root vanish with
  | .ok recs => .ok recs
  | .error e => .err 500 e

/-- HTTP result of the download endpoint: a streamed file (resolved path,
filename hint, bytes; media type is the constant `application/octet-stream`)
or an error status with its detail string. -/
inductive DlResult where
  | ok (path : FsPath) (filename : String) (content : List Nat)
  | err (status : Nat) (detail : String)
deriving Repr, DecidableEq

/-- `download_file` of `main.py`: join the requested relative path onto the
root and resolve it; reject with 400 when the resolved string does not start
with the root's string; reject with 404 when the resolved path is not an
existing regular file; otherwise stream it.  A resolution failure (symlink
loop) falls into the generic `except` branch as a 500. -/
def download_file (fs : FS) (root : FsPath) (file_path : String) : DlResult :=
  match resolveFull fs (pyJoin root file_path) with
  | none => .err 500 "Too many levels of symbolic links"
  | some requested_path =>
    if strStartsWith (pathStr requested_path) (pathStr root) then
      match fsLookup fs requested_path with
      | some (.file c _ _) => .ok requested_path (lastSeg requested_path) c
      | _ => .err 404 "Arquivo não encontrado"
    else .err 400 "Caminho inválido"

/-- The combined `requested_path.exists() and requested_path.is_file()` test
of `download_file`, applied to an already fully resolved path: it holds
exactly when the path is present as a regular file. -/
def existsAndIsFile (fs : FS) (q : FsPath) : Bool :=
  match fsLookup fs q with
  | some (.file _ _ _) => true
  | _ => false

/-- Nonempty proper segment-prefixes of a path (the ancestors below "/"). -/
def properPrefixes (p : FsPath) : List FsPath :=
  (List.range (p.length - 1)).map (fun i => p.take (i + 1))

/-- A valid segment name: nonempty and not one of the special entries. -/
def segOk (c : String) : Bool :=
  c != "" && c != "." && c != ".."

/-- Well-formedness of a filesystem snapshot, as the POSIX tree guarantees it:
distinct paths, valid nonempty segment lists, and every ancestor of a stored
path stored as a directory (symlinks are leaves of the physical tree). -/
def WF (fs : FS) : Prop :=
  (fs.map Prod.fst).Nodup ∧
  ∀ e ∈ fs, e.1 ≠ [] ∧ (∀ c ∈ e.1, segOk c = true) ∧
    ∀ q ∈ properPrefixes e.1, (q, Node.dir) ∈ fs

instance : DecidablePred WF := fun fs => by
  unfold WF; infer_instance

/-- All nonempty prefixes of a path, the directories `mkdir(parents=True)`
visits, shortest first. -/
def pathPrefixes (t : FsPath) : List FsPath :=
  (List.range t.length).map (fun i => t.take (i + 1))

/-- One `mkdir(exist_ok=True)` step: an existing directory is fine, an
existing non-directory raises, a missing path is created as a directory. -/
def mkdirOne (fs : FS) (q : FsPath) : Except String FS :=
  match fsLookup fs q with
  | some .dir => .ok fs
  | some _ => .error "File exists"
  | none => .ok (fs ++ [(q, Node.dir)])

/-- Create each directory of a list in turn, stopping at the first failure. -/
def mkdirList : FS → List FsPath → Except String FS
  | fs, [] => .ok fs
  | fs, q :: rest =>
    match mkdirOne fs q with
    | .ok fs2 => mkdirList fs2 rest
    | .error e => .error e

/-- `Path.mkdir(parents=True, exist_ok=True)`: create every missing ancestor
and the directory itself. -/
def mkdirAll (fs : FS) (t : FsPath) : Except String FS :=
  mkdirList fs (pathPrefixes t)

/-- `get_target_directory` of `main.py`: take the environment value (default
"./arquivos"), resolve it against the current working directory, and ensure
the directory exists; returns the target path and the updated filesystem. -/
def get_target_directory (env : Option String) (cwd : FsPath) (fs : FS) :
    Except String (FsPath × FS) :=
  let dir_path := env.getD "./arquivos"
  match resolveFull fs (pyJoin cwd dir_path) with
  | none => .error "Too many levels of symbolic links"
  | some target =>
    match mkdirAll fs target with
    | .ok fs2 => .ok (target, fs2)
    | .error e => .error e

/-- The race-free instantiation of the stat-race parameter: no file vanishes
between the `is_file()` check and the `stat()` call. -/
def vanishNone : FsPath → Bool := fun _ => false

/-! ### Concrete filesystem fixtures used to evaluate the model -/

/-- Tree with a sibling directory whose name extends the served root's name
as a string: root `/data/foo`, sibling `/data/foobar` holding a secret. -/
def fsSibling : FS :=
  [(["data"], .dir), (["data", "foo"], .dir), (["data", "foobar"], .dir),
   (["data", "foobar", "secret.txt"], .file [9, 9] 0 0)]

/-- Tree for the classic `../../etc/passwd` traversal: root `/srv/files`. -/
def fsSrv : FS :=
  [(["srv"], .dir), (["srv", "files"], .dir), (["etc"], .dir),
   (["etc", "passwd"], .file [1] 0 0)]

/-- Two-file tree under root `/r`, used to exercise the stat race. -/
def fsRace : FS :=
  [(["r"], .dir), (["r", "a.txt"], .file [1] 0 0), (["r", "b.txt"], .file [2, 2] 0 0)]

/-- Race scenario: the file `/r/b.txt` vanishes between its `is_file()`
check and its `stat()` call. -/
def vanishRace : FsPath → Bool := fun p => p == ["r", "b.txt"]

/-- Tree whose root `/srv` contains a symlink to a regular file outside the
root's subtree (`/etc/secret`). -/
def fsLinkOut : FS :=
  [(["srv"], .dir), (["srv", "link.bin"], .symlink ["etc", "secret"]),
   (["etc"], .dir), (["etc", "secret"], .file [7, 7, 7] 5 6)]

/-- Tree whose root `/data/foo` contains a symlink to a file in the sibling
directory `/data/foobar`, whose string form extends the root's. -/
def fsLinkSibling : FS :=
  [(["data"], .dir), (["data", "foo"], .dir),
   (["data", "foo", "link"], .symlink ["data", "foobar", "secret.txt"]),
   (["data", "foobar"], .dir), (["data", "foobar", "secret.txt"], .file [4, 2] 0 0)]

/-- Plain tree with one nested regular file `/r/sub/dir/name.txt`. -/
def fsNested : FS :=
  [(["r"], .dir), (["r", "sub"], .dir), (["r", "sub", "dir"], .dir),
   (["r", "sub", "dir", "name.txt"], .file [1] 2 3)]

/-- Plain tree with one file in a subdirectory, `/srv/sub/a.txt`. -/
def fsRoundtrip : FS :=
  [(["srv"], .dir), (["srv", "sub"], .dir), (["srv", "sub", "a.txt"], .file [1, 2] 0 0)]

/-- Tree with a recognized and an unrecognized extension under root `/r`. -/
def fsMime : FS :=
  [(["r"], .dir), (["r", "report.pdf"], .file [1] 0 0),
   (["r", "data.xyz123"], .file [2] 0 0)]

/-- One-file tree under root `/r`, for exercising a successful download. -/
def fsOne : FS :=
  [(["r"], .dir), (["r", "a.txt"], .file [1] 0 0)]

/-! ### Basic lemmas about the embedding -/

theorem isPrefixOf_true_iff {α : Type _} [BEq α] [LawfulBEq α] :
    ∀ {l₁ l₂ : List α}, l₁.isPrefixOf l₂ = true ↔ l₁ <+: l₂
  | [], _ => by simp
  | _ :: _, [] => by simp [List.isPrefixOf]
  | a :: l₁, b :: l₂ => by
    simp [List.isPrefixOf_cons₂, @isPrefixOf_true_iff _ _ _ l₁ l₂]

theorem fsLookup_eq_some_of_mem {fs : FS} {p : FsPath} {n : Node}
    (hnd : (fs.map Prod.fst).Nodup) (hmem : (p, n) ∈ fs) :
    fsLookup fs p = some n := by
  induction fs with
  | nil => cases hmem
  | cons e rest ih =>
    obtain ⟨q, m⟩ := e
    simp only [List.map_cons, List.nodup_cons, List.mem_map] at hnd
    rcases List.mem_cons.mp hmem with h | h
    · rw [Prod.mk.injEq] at h
      simp [fsLookup, h.1, h.2]
    · have hpq : p ≠ q := by
        intro he
        exact hnd.1 ⟨(p, n), h, by simp [he]⟩
      simp [fsLookup, hpq, ih hnd.2 h]

theorem fsLookup_append_single {fs : FS} {q r : FsPath} {n : Node} :
    fsLookup (fs ++ [(q, n)]) r =
      match fsLookup fs r with
      | some m => some m
      | none => if r = q then some n else none := by
  induction fs with
  | nil => simp [fsLookup]
  | cons e rest ih =>
    by_cases h : r = e.1
    · simp [fsLookup, h]
    · simpa [fsLookup, h] using ih

theorem segOk_iff {c : String} : segOk c = true ↔ c ≠ "" ∧ c ≠ "." ∧ c ≠ ".." := by
  simp [segOk, Bool.and_eq_true, bne_iff_ne, and_assoc]

theorem mem_properPrefixes {q p : FsPath} :
    q ∈ properPrefixes p ↔ ∃ i, i < p.length - 1 ∧ q = p.take (i + 1) := by
  simp only [properPrefixes, List.mem_map, List.mem_range]
  constructor
  · rintro ⟨i, hi, rfl⟩; exact ⟨i, hi, rfl⟩
  · rintro ⟨i, hi, rfl⟩; exact ⟨i, hi, rfl⟩

/-! ### Resolution lemmas -/

theorem resolveGo_physical (fs : FS) :
    ∀ (fuel : Nat) (rest : List String) (acc : FsPath),
    rest.length < fuel →
    (∀ c ∈ rest, c ≠ "." ∧ c ≠ "..") →
    (∀ i, i < rest.length → symAt fs (acc ++ rest.take (i + 1)) = none) →
    resolveGo fs fuel acc rest = some (acc ++ rest) := by
  intro fuel
  induction fuel with
  | zero => intro rest acc h; omega
  | succ f ih =>
    intro rest acc hlen hseg hsym
    cases rest with
    | nil => simp [resolveGo]
    | cons c r =>
      have hc := hseg c (by simp)
      have hAt : symAt fs (acc ++ [c]) = none := by
        have := hsym 0 (by simp)
        simpa using this
      rw [resolveGo]
      rw [if_neg hc.1, if_neg hc.2, hAt]
      have hrec := ih r (acc ++ [c])
        (by simpa using Nat.lt_of_succ_lt_succ hlen)
        (fun d hd => hseg d (by simp [hd]))
        (fun i hi => by
          have := hsym (i + 1) (by simpa using Nat.succ_lt_succ hi)
          simpa [List.append_assoc] using this)
      rw [hrec]
      simp

theorem resolveGo_congr {fs fs' : FS} (hsym : ∀ r, symAt fs' r = symAt fs r) :
    ∀ (fuel : Nat) (acc : FsPath) (rest : List String),
    resolveGo fs' fuel acc rest = resolveGo fs fuel acc rest := by
  intro fuel
  induction fuel with
  | zero => intro acc rest; rfl
  | succ f ih =>
    intro acc rest
    cases rest with
    | nil => rfl
    | cons c r =>
      rw [resolveGo, resolveGo, hsym]
      by_cases h1 : c = "."
      · simp only [if_pos h1, ih]
      · rw [if_neg h1, if_neg h1]
        by_cases h2 : c = ".."
        · simp only [if_pos h2, ih]
        · rw [if_neg h2, if_neg h2]
          cases hAt : symAt fs (acc ++ [c]) with
          | none => exact ih _ _
          | some t =>
            dsimp only
            rw [ih [] t]
            cases resolveGo fs f [] t with
            | none => rfl
            | some acc2 => exact ih _ _

theorem resolveGo_noDots (fs : FS) :
    ∀ (fuel : Nat) (rest : List String) (acc out : FsPath),
    resolveGo fs fuel acc rest = some out →
    (∀ c ∈ acc, c ≠ "." ∧ c ≠ "..") → (∀ c ∈ out, c ≠ "." ∧ c ≠ "..") := by
  intro fuel
  induction fuel with
  | zero => intro rest acc out h; cases h
  | succ f ih =>
    intro rest acc out hres hacc
    cases rest with
    | nil =>
      rw [resolveGo] at hres
      cases hres
      exact hacc
    | cons c r =>
      rw [resolveGo] at hres
      by_cases h1 : c = "."
      · rw [if_pos h1] at hres
        exact ih r acc out hres hacc
      · rw [if_neg h1] at hres
        by_cases h2 : c = ".."
        · rw [if_pos h2] at hres
          exact ih r acc.dropLast out hres
            (fun d hd => hacc d ((List.dropLast_sublist acc).subset hd))
        · rw [if_neg h2] at hres
          cases hAt : symAt fs (acc ++ [c]) with
          | none =>
            rw [hAt] at hres
            dsimp only at hres
            refine ih r (acc ++ [c]) out hres ?_
            intro d hd
            rcases List.mem_append.mp hd with h | h
            · exact hacc d h
            · rcases List.mem_singleton.mp h with rfl
              exact ⟨h1, h2⟩
          | some t =>
            rw [hAt] at hres
            dsimp only at hres
            cases hmid : resolveGo fs f [] t with
            | none => rw [hmid] at hres; cases hres
            | some acc2 =>
              rw [hmid] at hres
              have hacc2 := ih t [] acc2 hmid (by simp)
              exact ih r acc2 out hres hacc2

theorem resolveFull_physical {fs : FS} {p : FsPath} {n : Node}
    (hwf : WF fs) (hmem : (p, n) ∈ fs) (hn : ∀ t, n ≠ Node.symlink t) :
    resolveFull fs p = some p := by
  obtain ⟨hnd, hall⟩ := hwf
  have hself : fsLookup fs p = some n := fsLookup_eq_some_of_mem hnd hmem
  have hsegs := (hall _ hmem).2.1
  have hres := resolveGo_physical fs (p.length + 40 * (symTotal fs + 1) + 1) p []
    (by omega)
    (fun c hc => ((segOk_iff).mp (hsegs c hc)).2)
    (fun i hi => by
      by_cases hend : i + 1 = p.length
      · have : p.take (i + 1) = p := by rw [hend]; exact List.take_length p
        rw [List.nil_append, this]
        unfold symAt
        rw [hself]
        cases n with
        | file c ct mt => rfl
        | dir => rfl
        | symlink t => exact absurd rfl (hn t)
      · have hq : p.take (i + 1) ∈ properPrefixes p :=
          mem_properPrefixes.mpr ⟨i, by omega, rfl⟩
        have hdir : (p.take (i + 1), Node.dir) ∈ fs := (hall _ hmem).2.2 _ hq
        rw [List.nil_append]
        unfold symAt
        rw [fsLookup_eq_some_of_mem hnd hdir])
  simpa [resolveFull] using hres

/-! ### Path-string lemmas -/

theorem pathStr_foldl_extends :
    ∀ (b : List String) (s : String),
    ∃ r, b.foldl (fun a c => a ++ "/" ++ c) s = s ++ r := by
  intro b
  induction b with
  | nil => intro s; exact ⟨"", by simp⟩
  | cons c b ih =>
    intro s
    obtain ⟨r, hr⟩ := ih (s ++ "/" ++ c)
    refine ⟨"/" ++ c ++ r, ?_⟩
    simp only [List.foldl_cons]
    rw [← String.append_assoc, hr]
    simp [String.append_assoc]

theorem strStartsWith_of_ancestor {root p : FsPath} (h : root <+: p) :
    strStartsWith (pathStr p) (pathStr root) = true := by
  obtain ⟨t, rfl⟩ := h
  unfold pathStr
  rw [List.foldl_append]
  obtain ⟨r, hr⟩ := pathStr_foldl_extends t (root.foldl (fun a c => a ++ "/" ++ c) "")
  rw [hr]
  unfold strStartsWith
  rw [isPrefixOf_true_iff, String.data_append]
  exact List.prefix_append _ _

/-! ### Directory-creation lemmas -/

theorem mkdirOne_ok {fs fs' : FS} {q : FsPath} (h : mkdirOne fs q = .ok fs') :
    (∀ r, symAt fs' r = symAt fs r) ∧
    (∀ r m, fsLookup fs r = some m → fsLookup fs' r = some m) ∧
    fsLookup fs' q = some Node.dir ∧
    symTotal fs' = symTotal fs := by
  unfold mkdirOne at h
  cases hq : fsLookup fs q with
  | some n =>
    rw [hq] at h
    cases n with
    | dir =>
      cases h
      exact ⟨fun _ => rfl, fun _ _ hm => hm, hq, rfl⟩
    | file c ct mt => cases h
    | symlink t => cases h
  | none =>
    rw [hq] at h
    cases h
    refine ⟨?_, ?_, ?_, ?_⟩
    · intro r
      unfold symAt
      rw [fsLookup_append_single]
      cases hr : fsLookup fs r with
      | some m => rfl
      | none =>
        by_cases hrq : r = q
        · simp [hrq]
        · simp [hrq]
    · intro r m hm
      rw [fsLookup_append_single, hm]
    · rw [fsLookup_append_single, hq]
      simp
    · unfold symTotal
      rw [List.foldl_append]
      rfl

theorem mkdirList_ok {l : List FsPath} :
    ∀ {fs fs' : FS}, mkdirList fs l = .ok fs' →
    (∀ r, symAt fs' r = symAt fs r) ∧
    (∀ r m, fsLookup fs r = some m → fsLookup fs' r = some m) ∧
    (∀ q ∈ l, fsLookup fs' q = some Node.dir) ∧
    symTotal fs' = symTotal fs := by
  induction l with
  | nil =>
    intro fs fs' h
    cases h
    exact ⟨fun _ => rfl, fun _ _ hm => hm, by simp, rfl⟩
  | cons q rest ih =>
    intro fs fs' h
    unfold mkdirList at h
    cases hone : mkdirOne fs q with
    | error e => rw [hone] at h; cases h
    | ok fs2 =>
      rw [hone] at h
      obtain ⟨hsym1, hpres1, hq1, htot1⟩ := mkdirOne_ok hone
      obtain ⟨hsym2, hpres2, hrest2, htot2⟩ := ih h
      refine ⟨fun r => (hsym2 r).trans (hsym1 r), fun r m hm => hpres2 r m (hpres1 r m hm), ?_, htot2.trans htot1⟩
      intro p hp
      rcases List.mem_cons.mp hp with rfl | hp
      · exact hpres2 _ _ hq1
      · exact hrest2 _ hp

theorem mkdirList_idem {l : List FsPath} {fs : FS}
    (h : ∀ q ∈ l, fsLookup fs q = some Node.dir) :
    mkdirList fs l = .ok fs := by
  induction l with
  | nil => rfl
  | cons q rest ih =>
    unfold mkdirList mkdirOne
    rw [h q (by simp)]
    exact ih (fun p hp => h p (by simp [hp]))

theorem resolveFull_congr {fs fs' : FS} {p : FsPath}
    (hsym : ∀ r, symAt fs' r = symAt fs r) (htot : symTotal fs' = symTotal fs) :
    resolveFull fs' p = resolveFull fs p := by
  unfold resolveFull
  rw [htot]
  exact resolveGo_congr hsym _ _ _

/-! ### Listing-loop lemmas -/

theorem listLoop_mem {fs : FS} {root p : FsPath} {vanish : FsPath → Bool}
    {c : List Nat} {ct mt : Nat} :
    ∀ {l : List FsPath} {recs : List FileRecord},
    listLoop fs root vanish l = .ok recs → p ∈ l →
    statFile fs p = some (c, ct, mt) →
    mkRecord root p c ct mt ∈ recs := by
  intro l
  induction l with
  | nil => intro recs _ hp; cases hp
  | cons q rest ih =>
    intro recs hloop hp hstat
    unfold listLoop at hloop
    rcases List.mem_cons.mp hp with rfl | hp
    · rw [if_pos (by simp [is_file, hstat])] at hloop
      cases hv : vanish p with
      | true => rw [if_pos (by simp [hv])] at hloop; cases hloop
      | false =>
        rw [if_neg (by simp [hv])] at hloop
        rw [hstat] at hloop
        dsimp only at hloop
        cases hrest : listLoop fs root vanish rest with
        | error e => rw [hrest] at hloop; cases hloop
        | ok t =>
          rw [hrest] at hloop
          cases hloop
          simp
    · by_cases hf : is_file fs q
      · rw [if_pos hf] at hloop
        cases hv : vanish q with
        | true => rw [if_pos (by simp [hv])] at hloop; cases hloop
        | false =>
          rw [if_neg (by simp [hv])] at hloop
          cases hq : statFile fs q with
          | none => rw [hq] at hloop; cases hloop
          | some v =>
            obtain ⟨cq, ctq, mtq⟩ := v
            rw [hq] at hloop
            dsimp only at hloop
            cases hrest : listLoop fs root vanish rest with
            | error e => rw [hrest] at hloop; cases hloop
            | ok t =>
              rw [hrest] at hloop
              cases hloop
              exact List.mem_cons_of_mem _ (ih hrest hp hstat)
      · rw [if_neg hf] at hloop
        exact ih hloop hp hstat

theorem listLoop_type_inv {fs : FS} {root : FsPath} {vanish : FsPath → Bool} :
    ∀ {l : List FsPath} {recs : List FileRecord},
    listLoop fs root vanish l = .ok recs →
    ∀ rec ∈ recs, rec.type = (guess_type rec.name).getD "application/octet-stream" := by
  intro l
  induction l with
  | nil =>
    intro recs h
    cases h
    simp
  | cons q rest ih =>
    intro recs hloop
    unfold listLoop at hloop
    by_cases hf : is_file fs q
    · rw [if_pos hf] at hloop
      cases hv : vanish q with
      | true => rw [if_pos (by simp [hv])] at hloop; cases hloop
      | false =>
        rw [if_neg (by simp [hv])] at hloop
        cases hq : statFile fs q with
        | none => rw [hq] at hloop; cases hloop
        | some v =>
          obtain ⟨cq, ctq, mtq⟩ := v
          rw [hq] at hloop
          dsimp only at hloop
          cases hrest : listLoop fs root vanish rest with
          | error e => rw [hrest] at hloop; cases hloop
          | ok t =>
            rw [hrest] at hloop
            cases hloop
            intro rec hrec
            rcases List.mem_cons.mp hrec with rfl | hrec
            · rfl
            · exact ih hrest rec hrec
    · rw [if_neg hf] at hloop
      exact ih hloop

theorem listLoop_error_of_vanish {fs : FS} {root p : FsPath} {vanish : FsPath → Bool}
    (hfile : is_file fs p = true) (hv : vanish p = true) :
    ∀ {l : List FsPath}, p ∈ l →
    ∃ msg, listLoop fs root vanish l = .error msg := by
  intro l
  induction l with
  | nil => intro hp; cases hp
  | cons q rest ih =>
    intro hp
    unfold listLoop
    rcases List.mem_cons.mp hp with rfl | hp
    · rw [if_pos hfile, if_pos (by simp [hv])]
      exact ⟨_, rfl⟩
    · by_cases hf : is_file fs q
      · rw [if_pos hf]
        cases hvq : vanish q with
        | true =>
          rw [if_pos (by simp)]
          exact ⟨_, rfl⟩
        | false =>
          rw [if_neg (by simp)]
          cases hq : statFile fs q with
          | none => exact ⟨_, rfl⟩
          | some v =>
            obtain ⟨cq, ctq, mtq⟩ := v
            dsimp only
            obtain ⟨msg, hmsg⟩ := ih hp
            rw [hmsg]
            exact ⟨msg, rfl⟩
      · rw [if_neg hf]
        exact ih hp

/-! ### Claim C1 -/

/-- C1 counterexample: with root `/data/foo`, the request
`../foobar/secret.txt` resolves to `/data/foobar/secret.txt`, which lies
outside the root's subtree, yet `download_file` streams the file (the raw
string-prefix containment check accepts it) instead of failing with 400. -/
theorem c1_counterexample :
    download_file fsSibling ["data", "foo"] "../foobar/secret.txt" =
      DlResult.ok ["data", "foobar", "secret.txt"] "secret.txt" [9, 9] ∧
    ¬ (["data", "foo"] <+: ["data", "foobar", "secret.txt"]) := by
  constructor
  · decide
  · decide

/-- C1 (amended): a caller-supplied relative path whose resolved absolute
path's string form does not begin with the root's string form is rejected
with 400 (detail "Caminho inválido") and is never streamed; a resolved path
outside the root's subtree whose string form shares the root's string as a
prefix (sibling directory such as `/data/foobar` under root `/data/foo`)
passes the containment check instead of being rejected. -/
theorem c1_amended (fs : FS) (root : FsPath) (s : String) (q : FsPath)
    (hres : resolveFull fs (pyJoin root s) = some q)
    (hsw : strStartsWith (pathStr q) (pathStr root) = false) :
    download_file fs root s = DlResult.err 400 "Caminho inválido" ∧
    ∀ (p : FsPath) (fn : String) (c : List Nat),
      download_file fs root s ≠ DlResult.ok p fn c := by
  have hdl : download_file fs root s = DlResult.err 400 "Caminho inválido" := by
    unfold download_file
    rw [hres]
    dsimp only
    rw [hsw]
    simp
  exact ⟨hdl, fun p fn c h => by rw [hdl] at h; cases h⟩

/-- C1 witness: root `/srv/files`, request `../../etc/passwd` resolves to
`/etc/passwd` and is rejected with 400. -/
theorem c1_amended_witness :
    download_file fsSrv ["srv", "files"] "../../etc/passwd" =
      DlResult.err 400 "Caminho inválido" :=
  (c1_amended fsSrv ["srv", "files"] "../../etc/passwd" ["etc", "passwd"]
    (by decide) (by decide)).1

/-! ### Claim C2 -/

/-- C2 counterexample: in the tree `/r/a.txt`, `/r/b.txt`, when `/r/b.txt`
vanishes between its `is_file()` check and its `stat()` call, the whole
listing aborts and the endpoint returns a 500 error response instead of
skipping that entry and returning the rest of the listing. -/
theorem c2_counterexample :
    list_files_endpoint fsRace ["r"] vanishRace =
      ListResult.err 500 "No such file or directory" := by
  decide

/-- C2 (amended): if a file discovered by the walk and passing `is_file()`
disappears before its `stat()` call, the `stat` exception aborts the whole
listing and the endpoint produces a 500 error response; the entry is not
skipped (an entry is skipped only when it already fails the `is_file()`
check). -/
theorem c2_amended (fs : FS) (root p : FsPath) (vanish : FsPath → Bool)
    (hmem : p ∈ rglobStar fs root) (hfile : is_file fs p = true)
    (hv : vanish p = true) :
    ∃ msg, list_files_endpoint fs root vanish = ListResult.err 500 msg := by
  obtain ⟨msg, hmsg⟩ := listLoop_error_of_vanish hfile hv hmem
  refine ⟨msg, ?_⟩
  unfold list_files_endpoint list_files
  rw [hmsg]

/-- C2 witness: the race scenario on the two-file tree yields a 500. -/
theorem c2_amended_witness :
    ∃ msg, list_files_endpoint fsRace ["r"] vanishRace = ListResult.err 500 msg :=
  c2_amended fsRace ["r"] ["r", "b.txt"] vanishRace (by decide) (by decide) (by decide)

/-! ### Claim C3 -/

/-- C3: a request whose resolved path passes the string-prefix containment
check but is not an existing regular file fails with 404 (detail
"Arquivo não encontrado") — never 400 or 500; and the containment check is
performed first: a request whose resolved path fails it gets 400 regardless
of whether anything exists at that path. -/
theorem c3_inside_missing_404 :
    (∀ (fs : FS) (root : FsPath) (s : String) (q : FsPath),
      resolveFull fs (pyJoin root s) = some q →
      strStartsWith (pathStr q) (pathStr root) = true →
      existsAndIsFile fs q = false →
      download_file fs root s = DlResult.err 404 "Arquivo não encontrado") ∧
    (∀ (fs : FS) (root : FsPath) (s : String) (q : FsPath),
      resolveFull fs (pyJoin root s) = some q →
      strStartsWith (pathStr q) (pathStr root) = false →
      download_file fs root s = DlResult.err 400 "Caminho inválido") := by
  constructor
  · intro fs root s q hres hsw hnotfile
    unfold download_file
    rw [hres]
    dsimp only
    rw [hsw, if_pos rfl]
    unfold existsAndIsFile at hnotfile
    cases hl : fsLookup fs q with
    | none => rfl
    | some n =>
      rw [hl] at hnotfile
      cases n with
      | file c ct mt => cases hnotfile
      | dir => rfl
      | symlink t => rfl
  · intro fs root s q hres hsw
    unfold download_file
    rw [hres]
    dsimp only
    rw [hsw]
    simp

/-- C3 witness: under root `/srv` the missing path `missing.txt` resolves
inside the root and yields 404, while `../../etc/passwd` resolves outside
(and also does not exist in this tree) and yields 400. -/
theorem c3_inside_missing_404_witness :
    download_file [(["srv"], Node.dir)] ["srv"] "missing.txt" =
      DlResult.err 404 "Arquivo não encontrado" ∧
    download_file [(["srv"], Node.dir)] ["srv"] "../../etc/passwd" =
      DlResult.err 400 "Caminho inválido" :=
  ⟨c3_inside_missing_404.1 [(["srv"], Node.dir)] ["srv"] "missing.txt"
      ["srv", "missing.txt"] (by decide) (by decide) (by decide),
   c3_inside_missing_404.2 [(["srv"], Node.dir)] ["srv"] "../../etc/passwd"
      ["etc", "passwd"] (by decide) (by decide)⟩

/-! ### Claim C4 -/

/-- C4 counterexample: the listing of root `/srv` contains a record for
`link.bin` (a symlink to the regular file `/etc/secret`, so `is_file()` is
true and it is listed with subdirectory "" and size 3), yet downloading
`link.bin` — the path formed from that record — returns 400 instead of 200
with the file's bytes, because `resolve()` follows the symlink outside the
root before the containment check. -/
theorem c4_counterexample :
    list_files fsLinkOut ["srv"] vanishNone =
      Except.ok [{ name := "link.bin", type := "application/octet-stream",
                   size_bytes := 3, created_at := 5, modified_at := 6,
                   subdirectory := "" }] ∧
    download_file fsLinkOut ["srv"] "link.bin" =
      DlResult.err 400 "Caminho inválido" := by
  constructor
  · decide
  · decide

/-- C4 (amended): the list/download round-trip holds for every listed entry
whose walked path is physically a regular file (not a symlink): requesting
the string that parses back to the record's path below the root returns 200
with the same file's bytes, whose length is the record's `size_bytes`.
Entries listed through a symlink may instead be rejected (see the
counterexample). -/
theorem c4_amended_roundtrip (fs : FS) (root p : FsPath) (c : List Nat)
    (ct mt : Nat) (s : String)
    (hwf : WF fs) (hmem : (p, Node.file c ct mt) ∈ fs) (hpre : root <+: p)
    (hs : strStartsWith s "/" = false)
    (hparse : parseComponents s = p.drop root.length) :
    download_file fs root s = DlResult.ok p (lastSeg p) c ∧
    c.length = (mkRecord root p c ct mt).size_bytes := by
  have hjoin : pyJoin root s = p := by
    unfold pyJoin
    rw [hs]
    simp only [Bool.false_eq_true, if_false, hparse]
    obtain ⟨t, rfl⟩ := hpre
    rw [List.drop_left]
  have hres : resolveFull fs p = some p :=
    resolveFull_physical hwf hmem (fun t h => Node.noConfusion h)
  have hlook : fsLookup fs p = some (Node.file c ct mt) :=
    fsLookup_eq_some_of_mem hwf.1 hmem
  constructor
  · unfold download_file
    rw [hjoin, hres]
    dsimp only
    rw [strStartsWith_of_ancestor hpre, if_pos rfl, hlook]
  · rfl

/-- C4 witness: in the tree `/srv/sub/a.txt`, the record's request string
`"sub/a.txt"` (subdirectory ++ "/" ++ name) downloads as 200 with the same
two bytes. -/
theorem c4_amended_roundtrip_witness :
    download_file fsRoundtrip ["srv"] "sub/a.txt" =
      DlResult.ok ["srv", "sub", "a.txt"] "a.txt" [1, 2] ∧
    ([1, 2] : List Nat).length =
      (mkRecord ["srv"] ["srv", "sub", "a.txt"] [1, 2] 0 0).size_bytes :=
  c4_amended_roundtrip fsRoundtrip ["srv"] ["srv", "sub", "a.txt"] [1, 2] 0 0
    "sub/a.txt" (by decide) (by decide) (by decide) (by decide) (by decide)

/-! ### Claim C5 -/

/-- C5: every regular file physically stored below the root appears in the
listing with `name` the final path segment and `subdirectory` the parent
path relative to the root joined with "/" (the empty string for a file
directly under the root). -/
theorem c5_listing_contains_record (fs : FS) (root p : FsPath) (c : List Nat)
    (ct mt : Nat) (recs : List FileRecord)
    (hwf : WF fs) (hmem : (p, Node.file c ct mt) ∈ fs) (hpre : root <+: p)
    (hne : p ≠ root)
    (hlist : list_files fs root vanishNone = Except.ok recs) :
    ∃ rec ∈ recs, rec.name = lastSeg p ∧
      rec.subdirectory = String.intercalate "/" ((p.drop root.length).dropLast) := by
  have hstat : statFile fs p = some (c, ct, mt) := by
    unfold statFile
    rw [resolveFull_physical hwf hmem (fun t h => Node.noConfusion h)]
    dsimp only
    rw [fsLookup_eq_some_of_mem hwf.1 hmem]
  have hwalk : p ∈ rglobStar fs root := by
    unfold rglobStar
    refine List.mem_filter.mpr ⟨List.mem_map.mpr ⟨(p, Node.file c ct mt), hmem, rfl⟩, ?_⟩
    rw [Bool.and_eq_true, isPrefixOf_true_iff, bne_iff_ne]
    exact ⟨hpre, hne⟩
  unfold list_files at hlist
  exact ⟨mkRecord root p c ct mt, listLoop_mem hlist hwalk hstat, rfl, rfl⟩

/-- C5 witness: the file `/r/sub/dir/name.txt` is listed with name
"name.txt" and subdirectory "sub/dir". -/
theorem c5_listing_contains_record_witness :
    ∃ rec ∈ [mkRecord ["r"] ["r", "sub", "dir", "name.txt"] [1] 2 3],
      rec.name = lastSeg ["r", "sub", "dir", "name.txt"] ∧
      rec.subdirectory =
        String.intercalate "/" (((["r", "sub", "dir", "name.txt"] : FsPath).drop 1).dropLast) :=
  c5_listing_contains_record fsNested ["r"] ["r", "sub", "dir", "name.txt"]
    [1] 2 3 [mkRecord ["r"] ["r", "sub", "dir", "name.txt"] [1] 2 3]
    (by decide) (by decide) (by decide) (by decide) (by decide)

/-! ### Claim C6 -/

/-- C6: the MIME type of every listing record is the best-effort guess from
the record's file name, with the exact fallback "application/octet-stream"
when the extension is unrecognized; `report.pdf` guesses "application/pdf"
and `data.xyz123` is unrecognized. -/
theorem c6_mime_best_effort :
    (∀ (fs : FS) (root : FsPath) (vanish : FsPath → Bool) (recs : List FileRecord),
      list_files fs root vanish = Except.ok recs →
      ∀ rec ∈ recs, rec.type = (guess_type rec.name).getD "application/octet-stream") ∧
    guess_type "report.pdf" = some "application/pdf" ∧
    guess_type "data.xyz123" = none := by
  refine ⟨?_, by decide, by decide⟩
  intro fs root vanish recs hlist
  unfold list_files at hlist
  exact listLoop_type_inv hlist

/-- C6 witness: in the listing of `/r` containing `report.pdf` and
`data.xyz123`, the pdf record's type is the guess for its name (which is
"application/pdf") and the unrecognized record's type is the fallback. -/
theorem c6_mime_best_effort_witness :
    (mkRecord ["r"] ["r", "report.pdf"] [1] 0 0).type =
      (guess_type (mkRecord ["r"] ["r", "report.pdf"] [1] 0 0).name).getD
        "application/octet-stream" ∧
    (mkRecord ["r"] ["r", "data.xyz123"] [2] 0 0).type =
      (guess_type (mkRecord ["r"] ["r", "data.xyz123"] [2] 0 0).name).getD
        "application/octet-stream" :=
  ⟨c6_mime_best_effort.1 fsMime ["r"] vanishNone
      [mkRecord ["r"] ["r", "report.pdf"] [1] 0 0,
       mkRecord ["r"] ["r", "data.xyz123"] [2] 0 0]
      (by decide) _ (by decide),
   c6_mime_best_effort.1 fsMime ["r"] vanishNone
      [mkRecord ["r"] ["r", "report.pdf"] [1] 0 0,
       mkRecord ["r"] ["r", "data.xyz123"] [2] 0 0]
      (by decide) _ (by decide)⟩

/-! ### Claim C7 -/

/-- C7 counterexample: with the root directory missing (empty filesystem,
root `/gone`), `rglob` yields nothing, so the endpoint returns 200 with an
empty listing — not the claimed 500 carrying the error's message. -/
theorem c7_counterexample :
    fsLookup [] ["gone"] = none ∧
    list_files_endpoint [] ["gone"] vanishNone = ListResult.ok [] := by
  constructor
  · decide
  · decide

/-- C7 (amended): when the directory walk hits a missing root, it yields no
entries instead of failing, so the list operation succeeds and the HTTP
handler responds 200 with an empty listing; no error response is produced at
the root level (the 500-with-message translation applies only to exceptions
raised while processing walked entries). -/
theorem c7_missing_root_empty (fs : FS) (root : FsPath) (vanish : FsPath → Bool)
    (hwf : WF fs) (hne : root ≠ []) (hroot : fsLookup fs root = none) :
    list_files fs root vanish = Except.ok [] ∧
    list_files_endpoint fs root vanish = ListResult.ok [] ∧
    ∀ status detail, list_files_endpoint fs root vanish ≠ ListResult.err status detail := by
  have h0 : root.length ≠ 0 := fun h => hne (List.eq_nil_of_length_eq_zero h)
  have hglob : rglobStar fs root = [] := by
    unfold rglobStar
    rw [List.filter_eq_nil_iff]
    intro p hp hcond
    rw [Bool.and_eq_true, isPrefixOf_true_iff, bne_iff_ne] at hcond
    obtain ⟨⟨t, hpt⟩, hnep⟩ := hcond
    have ht : t.length ≠ 0 := by
      intro h
      rw [List.eq_nil_of_length_eq_zero h, List.append_nil] at hpt
      exact hnep hpt.symm
    obtain ⟨e, he, hep⟩ := List.mem_map.mp hp
    obtain ⟨q, n⟩ := e
    cases hep
    subst hpt
    have hrootmem : (root, Node.dir) ∈ fs := by
      refine (hwf.2 _ he).2.2 root (mem_properPrefixes.mpr ⟨root.length - 1, ?_, ?_⟩)
      · rw [List.length_append]
        omega
      · rw [Nat.sub_add_cancel (by omega), List.take_left]
    rw [fsLookup_eq_some_of_mem hwf.1 hrootmem] at hroot
    cases hroot
  have hlist : list_files fs root vanish = Except.ok [] := by
    unfold list_files
    rw [hglob]
    rfl
  refine ⟨hlist, ?_, ?_⟩
  · unfold list_files_endpoint
    rw [hlist]
  · intro status detail h
    unfold list_files_endpoint at h
    rw [hlist] at h
    cases h

/-- C7 witness: listing the tree `/r/a.txt` under the missing root `/gone`
succeeds with an empty listing and never errors. -/
theorem c7_missing_root_empty_witness :
    list_files fsOne ["gone"] vanishNone = Except.ok [] ∧
    list_files_endpoint fsOne ["gone"] vanishNone = ListResult.ok [] ∧
    ∀ status detail,
      list_files_endpoint fsOne ["gone"] vanishNone ≠ ListResult.err status detail :=
  c7_missing_root_empty fsOne ["gone"] vanishNone (by decide) (by decide) (by decide)

/-! ### Claim C8 -/

/-- C8: root resolution uses the literal default "./arquivos" when the
environment value is absent; a successful resolution yields a normalized
path (no "." or ".." segments; paths are absolute by construction), creates
the directory (with any missing parents), and is idempotent — invoking it
again on the resulting filesystem succeeds with the same path and changes
nothing. -/
theorem c8_root_resolution :
    (∀ (cwd : FsPath) (fs : FS),
      get_target_directory none cwd fs = get_target_directory (some "./arquivos") cwd fs) ∧
    (∀ (env : Option String) (cwd : FsPath) (fs : FS) (t : FsPath) (fs1 : FS),
      get_target_directory env cwd fs = Except.ok (t, fs1) →
      (∀ c ∈ t, c ≠ "." ∧ c ≠ "..") ∧
      (t ≠ [] → fsLookup fs1 t = some Node.dir) ∧
      get_target_directory env cwd fs1 = Except.ok (t, fs1)) := by
  constructor
  · intro cwd fs
    rfl
  · intro env cwd fs t fs1 h
    unfold get_target_directory at h
    dsimp only at h
    cases hres : resolveFull fs (pyJoin cwd (env.getD "./arquivos")) with
    | none => rw [hres] at h; cases h
    | some target =>
      rw [hres] at h
      dsimp only at h
      cases hmk : mkdirAll fs target with
      | error e => rw [hmk] at h; cases h
      | ok fs2 =>
        rw [hmk] at h
        dsimp only at h
        cases h
        obtain ⟨hsym, hpres, hdirs, htot⟩ := mkdirList_ok hmk
        refine ⟨?_, ?_, ?_⟩
        · exact resolveGo_noDots fs _ _ [] t hres (by simp)
        · intro hne
          refine hdirs t ?_
          unfold pathPrefixes
          refine List.mem_map.mpr ⟨t.length - 1, List.mem_range.mpr ?_, ?_⟩
          · have : t.length ≠ 0 := fun h0 => hne (List.eq_nil_of_length_eq_zero h0)
            omega
          · have hlen : t.length - 1 + 1 = t.length := by
              have : t.length ≠ 0 := fun h0 => hne (List.eq_nil_of_length_eq_zero h0)
              omega
            rw [hlen, List.take_length]
        · unfold get_target_directory
          dsimp only
          rw [resolveFull_congr hsym htot, hres]
          dsimp only
          unfold mkdirAll
          rw [mkdirList_idem hdirs]

/-- C8 witness: with no environment value and working directory `/home`, the
default "./arquivos" resolves to `/home/arquivos`, both directories are
created, and a second invocation returns the same path unchanged. -/
theorem c8_root_resolution_witness :
    get_target_directory none ["home"] [] =
      Except.ok (["home", "arquivos"],
        [(["home"], Node.dir), (["home", "arquivos"], Node.dir)]) ∧
    (∀ c ∈ (["home", "arquivos"] : FsPath), c ≠ "." ∧ c ≠ "..") ∧
    ((["home", "arquivos"] : FsPath) ≠ [] →
      fsLookup [(["home"], Node.dir), (["home", "arquivos"], Node.dir)]
        ["home", "arquivos"] = some Node.dir) ∧
    get_target_directory none ["home"]
        [(["home"], Node.dir), (["home", "arquivos"], Node.dir)] =
      Except.ok (["home", "arquivos"],
        [(["home"], Node.dir), (["home", "arquivos"], Node.dir)]) :=
  ⟨by decide,
   (c8_root_resolution.2 none ["home"] [] ["home", "arquivos"]
      [(["home"], Node.dir), (["home", "arquivos"], Node.dir)] (by decide)).1,
   (c8_root_resolution.2 none ["home"] [] ["home", "arquivos"]
      [(["home"], Node.dir), (["home", "arquivos"], Node.dir)] (by decide)).2.1,
   (c8_root_resolution.2 none ["home"] [] ["home", "arquivos"]
      [(["home"], Node.dir), (["home", "arquivos"], Node.dir)] (by decide)).2.2⟩

/-! ### Claim C9 -/

/-- C9 counterexample: the symlink `/data/foo/link` inside root `/data/foo`
targets `/data/foobar/secret.txt`, which lies outside the root's subtree;
the claim requires a 400 rejection, but because the sibling directory's
string form extends the root's string form, the resolved target passes the
prefix containment check and the file is streamed. -/
theorem c9_counterexample :
    download_file fsLinkSibling ["data", "foo"] "link" =
      DlResult.ok ["data", "foobar", "secret.txt"] "secret.txt" [4, 2] ∧
    ¬ (["data", "foo"] <+: ["data", "foobar", "secret.txt"]) := by
  constructor
  · decide
  · decide

/-- C9 (amended): the streaming branch is reachable only for fully resolved
paths accepted by the string-prefix containment check and present as regular
files — whatever is streamed passed that check; a symlink whose resolved
target's string form does not begin with the root's string form is rejected
with 400 (but sibling-prefix targets pass the check, see the
counterexample). -/
theorem c9_amended_stream_guard (fs : FS) (root : FsPath) (s : String)
    (p : FsPath) (fn : String) (c : List Nat)
    (h : download_file fs root s = DlResult.ok p fn c) :
    strStartsWith (pathStr p) (pathStr root) = true ∧
    resolveFull fs (pyJoin root s) = some p ∧
    fn = lastSeg p ∧
    ∃ ct mt, fsLookup fs p = some (Node.file c ct mt) := by
  unfold download_file at h
  cases hres : resolveFull fs (pyJoin root s) with
  | none => rw [hres] at h; cases h
  | some q =>
    rw [hres] at h
    dsimp only at h
    by_cases hsw : strStartsWith (pathStr q) (pathStr root) = true
    · rw [hsw, if_pos rfl] at h
      cases hl : fsLookup fs q with
      | none => rw [hl] at h; cases h
      | some n =>
        rw [hl] at h
        cases n with
        | file c2 ct2 mt2 =>
          dsimp only at h
          cases h
          exact ⟨hsw, rfl, rfl, ct2, mt2, hl⟩
        | dir => cases h
        | symlink t => cases h
    · rw [if_neg hsw] at h
      cases h

/-- C9 witness: the successful download of `/r/a.txt` under root `/r` indeed
passed the containment check and names a stored regular file. -/
theorem c9_amended_stream_guard_witness :
    strStartsWith (pathStr ["r", "a.txt"]) (pathStr ["r"]) = true ∧
    resolveFull fsOne (pyJoin ["r"] "a.txt") = some ["r", "a.txt"] ∧
    "a.txt" = lastSeg ["r", "a.txt"] ∧
    ∃ ct mt, fsLookup fsOne ["r", "a.txt"] = some (Node.file [1] ct mt) :=
  c9_amended_stream_guard fsOne ["r"] "a.txt" ["r", "a.txt"] "a.txt" [1] (by decide)

/-! ### Claim C10 -/

/-- C10: a download request with the empty string as the relative path joins
to the root itself, resolves to the root, passes the containment check, and
fails the regular-file check, returning 404 ("Arquivo não encontrado"). -/
theorem c10_empty_path_404 (fs : FS) (root : FsPath)
    (hdir : fsLookup fs root = some Node.dir)
    (hres : resolveFull fs root = some root) :
    pyJoin root "" = root ∧
    download_file fs root "" = DlResult.err 404 "Arquivo não encontrado" := by
  have hpc : parseComponents "" = [] := by decide
  have hsw : strStartsWith "" "/" = false := by decide
  have hjoin : pyJoin root "" = root := by
    unfold pyJoin
    rw [hsw]
    simp [hpc]
  refine ⟨hjoin, ?_⟩
  unfold download_file
  rw [hjoin, hres]
  dsimp only
  rw [strStartsWith_of_ancestor List.prefix_rfl, if_pos rfl, hdir]

/-- C10 witness: the empty request on the one-directory tree returns 404. -/
theorem c10_empty_path_404_witness :
    pyJoin ["r"] "" = ["r"] ∧
    download_file [(["r"], Node.dir)] ["r"] "" =
      DlResult.err 404 "Arquivo não encontrado" :=
  c10_empty_path_404 [(["r"], Node.dir)] ["r"] (by decide) (by decide)

end FileServer
